import Mathlib

/-
Verification of the scraper in scripts/scrape.py.

Python strings are modelled as lists of Unicode code points (List Nat);
the character-class tests mirror Python's behaviour on the ASCII range,
which is the range the script's own constants and separators live in.
File-system state is an association list from path to file contents, and
the outcome of a single network download attempt is an explicit event.
-/

namespace Scrape

/-- Code points of a Lean string literal, used to write concrete inputs. -/
def pyStr (s : String) : List Nat := s.data.map Char.toNat

/-! ## Character classes (ASCII fragment of Python's str methods / regex classes) -/

/-- ASCII uppercase letter, code 65..90. -/
def isAsciiUpper (n : Nat) : Bool := decide (65 ≤ n ∧ n ≤ 90)

/-- ASCII lowercase letter, code 97..122. -/
def isAsciiLower (n : Nat) : Bool := decide (97 ≤ n ∧ n ≤ 122)

/-- ASCII digit, code 48..57. -/
def isAsciiDigit (n : Nat) : Bool := decide (48 ≤ n ∧ n ≤ 57)

/-- ASCII letter. -/
def isAsciiAlpha (n : Nat) : Bool := isAsciiUpper n || isAsciiLower n

/-- ASCII letter or digit. -/
def isAsciiAlnum (n : Nat) : Bool := isAsciiAlpha n || isAsciiDigit n

/-- Python str.lower / str.strip whitespace: space, tab, LF, CR, VT, FF. -/
def isSpaceN (n : Nat) : Bool := decide (n = 32 ∨ n = 9 ∨ n = 10 ∨ n = 13 ∨ n = 11 ∨ n = 12)

/-- The hyphen character, code 45. -/
def isHy (n : Nat) : Bool := decide (n = 45)

/-- The underscore character, code 95. -/
def isUnd (n : Nat) : Bool := decide (n = 95)

/-- Regex class backslash-w, ASCII fragment: letter, digit or underscore.
Python's re is Unicode-aware, so on code points at or above 128 the real
class also matches accented letters; this model coincides with the program
exactly on ASCII input, and theorems over it quantify only over that range. -/
def isWordChar (n : Nat) : Bool := isAsciiAlnum n || isUnd n

/-- Python str.lower on one code point, ASCII fragment: coincides with the
Unicode-aware str.lower exactly on code points below 128, the range the
theorems quantify over. -/
def pyLowerN (n : Nat) : Nat := if 65 ≤ n ∧ n ≤ 90 then n + 32 else n

/-- Python str.upper on one code point, ASCII fragment (same scope as
pyLowerN). -/
def pyUpperN (n : Nat) : Nat := if 97 ≤ n ∧ n ≤ 122 then n - 32 else n

/-! ## Generic list-of-codepoints utilities shared by several functions -/

/-- Does the list start with the given pattern? Mirrors Python str.startswith. -/
def startsWithL : List Nat → List Nat → Bool
  | [], _ => true
  | _ :: _, [] => false
  | a :: as, b :: bs => (a == b) && startsWithL as bs

/-- Substring occurrence test; mirrors Python's `needle in s`. -/
def containsL (needle : List Nat) : List Nat → Bool
  | [] => needle.isEmpty
  | c :: cs => startsWithL needle (c :: cs) || containsL needle cs

/-- Mirrors Python str.endswith. -/
def endsWithL (needle : List Nat) (l : List Nat) : Bool :=
  startsWithL needle.reverse l.reverse

/-- Suffix following the first occurrence of `needle`, if it occurs. -/
def afterSub (needle : List Nat) : List Nat → Option (List Nat)
  | [] => if needle.isEmpty then some [] else none
  | c :: cs =>
    if startsWithL needle (c :: cs) then some ((c :: cs).drop needle.length)
    else afterSub needle cs

/-- Remove the longest run of `p`-characters at the end of the list. -/
def dropWhileEnd (p : Nat → Bool) : List Nat → List Nat
  | [] => []
  | c :: cs =>
    if (dropWhileEnd p cs).isEmpty then (if p c then [] else [c])
    else c :: dropWhileEnd p cs

/-- Python str.strip with no argument: trim whitespace at both ends. -/
def pyStrip (l : List Nat) : List Nat :=
  dropWhileEnd isSpaceN (l.dropWhile isSpaceN)

/-- Python str.split(sep) for a one-character separator. -/
def splitOnChar (sep : Nat) : List Nat → List (List Nat)
  | [] => [[]]
  | c :: cs =>
    if c = sep then [] :: splitOnChar sep cs
    else
      match splitOnChar sep cs with
      | [] => [[c]]
      | p :: ps => (c :: p) :: ps

/-- Last element of a split, i.e. Python's `s.split(sep)[-1]`. -/
def lastD (l : List (List Nat)) : List Nat :=
  match l.getLast? with
  | some x => x
  | none => []

/-- Replace every maximal run of `p`-characters by the single character `r`;
this is `re.sub(cls+, r, s)` for a character class `cls`.  The flag records
whether the previous character was inside a run. -/
def squashAux (p : Nat → Bool) (r : Nat) : Bool → List Nat → List Nat
  | _, [] => []
  | true, c :: cs =>
    if p c then squashAux p r true cs else c :: squashAux p r false cs
  | false, c :: cs =>
    if p c then r :: squashAux p r true cs else c :: squashAux p r false cs

/-- Top-level entry for run squashing (run flag starts false). -/
def squashRuns (p : Nat → Bool) (r : Nat) (l : List Nat) : List Nat :=
  squashAux p r false l

/-- First-occurrence deduplication, i.e. Python's `list(dict.fromkeys(l))`;
`seen` is the set of keys already emitted. -/
def dedupAux {α : Type} [DecidableEq α] (seen : List α) : List α → List α
  | [] => []
  | x :: xs => if x ∈ seen then dedupAux seen xs else x :: dedupAux (seen ++ [x]) xs

/-- `list(dict.fromkeys(l))` from scrape.py line 169. -/
def dedupL (l : List (List Nat)) : List (List Nat) := dedupAux [] l

/-! ## slugify (scrape.py lines 222-228) -/

/-- Boolean check for the characters allowed in a slug. -/
def isSlugChar (n : Nat) : Bool := isAsciiLower n || isAsciiDigit n || isHy n

/-- No two adjacent hyphens anywhere in the list. -/
def noDoubleHyphen : List Nat → Bool
  | a :: b :: t => (!(isHy a && isHy b)) && noDoubleHyphen (b :: t)
  | _ => true

/-- slugify from scrape.py: lower + strip, drop characters outside
backslash-w, whitespace and hyphen, turn whitespace/underscore runs into a
hyphen, collapse hyphen runs, strip hyphens at both ends.  Built from the
ASCII-fragment character classes above, it agrees with the Python function
character for character on ASCII input; on non-ASCII input the program's
Unicode classes keep word characters this model would drop, so claims about
slugify are stated only for ASCII titles. -/
def slugify (s : List Nat) : List Nat :=
  let t0 := pyStrip (s.map pyLowerN)
  let t1 := t0.filter (fun c => isWordChar c || isSpaceN c || isHy c)
  let t2 := squashRuns (fun c => isSpaceN c || isUnd c) 45 t1
  let t3 := squashRuns isHy 45 t2
  dropWhileEnd isHy (t3.dropWhile isHy)

/-! ## Title derivation from the URL slug (scrape.py lines 142-152) -/

/-- Python str.title on one pass: a cased (here: ASCII letter) character is
uppercased when the previous character was not cased, lowercased otherwise. -/
def pyTitleAux : Bool → List Nat → List Nat
  | _, [] => []
  | prevCased, c :: cs =>
    let cased := isAsciiAlpha c
    (if cased then (if prevCased then pyLowerN c else pyUpperN c) else c)
      :: pyTitleAux cased cs

/-- Python str.title. -/
def pyTitleN (l : List Nat) : List Nat := pyTitleAux false l

/-- Python str.rstrip(chars): remove trailing characters belonging to the
given character SET (not the given suffix). -/
def pyRstripSet (set : List Nat) (l : List Nat) : List Nat :=
  dropWhileEnd (fun c => set.contains c) l

/-- Python `s.split("--", 1)` when the separator occurs: the text before the
first "--" and the text after it. -/
def splitOnceDD : List Nat → Option (List Nat × List Nat)
  | [] => none
  | 45 :: 45 :: rest => some ([], rest)
  | c :: cs =>
    match splitOnceDD cs with
    | some (a, b) => some (c :: a, b)
    | none => none

/-- One half of the slug: replace hyphens by spaces, strip, title-case
(`parts[i].replace("-", " ").strip().title()`). -/
def titleize (l : List Nat) : List Nat :=
  pyTitleN (pyStrip (l.map (fun c => if c = 45 then 32 else c)))

/-- Title extraction of extract_product_data: slug is
`url.rstrip(".html").split("/")[-1]`, then split once on "--" into the
Dutch/English titles, or the single title is used for both. -/
def extract_titles (url : List Nat) : List Nat × List Nat :=
  let slug := lastD (splitOnChar 47 (pyRstripSet (pyStr ".html") url))
  match splitOnceDD slug with
  | some (a, b) => (titleize a, titleize b)
  | none => (titleize slug, titleize slug)

/-! ## Price extraction (scrape.py lines 159-165) -/

/-- Regex class `[\d.,]` (46 is the dot, 44 the comma). -/
def isPriceChar (n : Nat) : Bool := isAsciiDigit n || n == 46 || n == 44

/-- Try to match the regex `€\s*([\d.,]+)` at the head of the list
(8364 is the euro sign); returns the captured group. -/
def priceTokenAt : List Nat → Option (List Nat)
  | [] => none
  | c :: cs =>
    if c = 8364 then
      let tok := (cs.dropWhile isSpaceN).takeWhile isPriceChar
      if tok.isEmpty then none else some tok
    else none

/-- `re.search` for the price pattern: the leftmost position where the
pattern matches. -/
def findPriceToken : List Nat → Option (List Nat)
  | [] => none
  | c :: cs =>
    match priceTokenAt (c :: cs) with
    | some t => some t
    | none => findPriceToken cs

/-- `price_str.replace(".", "").replace(",", ".")`. -/
def normalizePrice (tok : List Nat) : List Nat :=
  (tok.filter (fun c => c != 46)).map (fun c => if c = 44 then 46 else c)

/-- Numeric value of a digit string. -/
def natOfDigits (l : List Nat) : Nat := l.foldl (fun acc c => 10 * acc + (c - 48)) 0

/-- Python float(s) for strings made of digits and dots: at most one dot
and at least one digit, otherwise a ValueError (none); the decimal value is
represented exactly as a rational. -/
def pyFloatQ (l : List Nat) : Option ℚ :=
  match splitOnChar 46 l with
  | [a] => if a ≠ [] ∧ a.all isAsciiDigit then some (mkRat (natOfDigits a) 1) else none
  | [a, b] =>
    if (a ≠ [] ∨ b ≠ []) ∧ (a ++ b).all isAsciiDigit then
      some (mkRat (natOfDigits a * 10 ^ b.length + natOfDigits b) (10 ^ b.length))
    else none
  | _ => none

/-- Price extraction: no regex match leaves the price key absent (none); a
match is normalized and parsed, and a ValueError is turned into the present
value 0 by the `except ValueError` branch. -/
def extract_price (html : List Nat) : Option ℚ :=
  match findPriceToken html with
  | none => none
  | some tok =>
    match pyFloatQ (normalizePrice tok) with
    | some v => some v
    | none => some 0

/-! ## Image list extraction (scrape.py lines 167-176) -/

/-- og:image insertion: when the meta tag matched, its URL is inserted at
the front unless it is already anywhere in the list. -/
def insertOg (images : List (List Nat)) : Option (List Nat) → List (List Nat)
  | none => images
  | some og => if og ∈ images then images else og :: images

/-- Image list construction from the upload-path regex matches (in document
order) and the optional og:image URL. -/
def extract_images (ms : List (List Nat)) (og : Option (List Nat)) : List (List Nat) :=
  insertOg (dedupL ms) og

/-! ## LinkExtractor (scrape.py lines 69-82) -/

/-- One start tag as seen by HTMLParser.handle_starttag. -/
structure Tag where
  name : List Nat
  attrs : List (List Nat × List Nat)

/-- Python `dict(attrs).get(key, "")`: the LAST binding of a repeated
attribute wins, and a missing attribute yields the empty string. -/
def dictGet (attrs : List (List Nat × List Nat)) (key : List Nat) : List Nat :=
  match attrs.foldl (fun acc kv => if kv.1 = key then some kv.2 else acc) none with
  | some v => v
  | none => []

/-- The fixed markers of LinkExtractor. -/
def detailSeg : List Nat := pyStr "/detail/"

/-- The page-file extension links must end with. -/
def htmlExt : List Nat := pyStr ".html"

/-- The anchor tag name. -/
def aName : List Nat := pyStr "a"

/-- The href attribute name. -/
def hrefKey : List Nat := pyStr "href"

/-- Does an href qualify as a detail link? -/
def qualifiesLink (h : List Nat) : Bool := containsL detailSeg h && endsWithL htmlExt h

/-- LinkExtractor.handle_starttag for one tag. -/
def linkStep (links : List (List Nat)) (t : Tag) : List (List Nat) :=
  if t.name = aName then
    let href := dictGet t.attrs hrefKey
    if qualifiesLink href then
      (if href ∈ links then links else links ++ [href])
    else links
  else links

/-- Feeding a whole document (its start tags in document order) to
LinkExtractor and reading `.links`. -/
def extractLinks (doc : List Tag) : List (List Nat) := doc.foldl linkStep []

/-- The qualifying anchor hrefs of a document, in document order, before
deduplication. -/
def qualHrefs (doc : List Tag) : List (List Nat) :=
  ((doc.filter (fun t => decide (t.name = aName))).map
    (fun t => dictGet t.attrs hrefKey)).filter qualifiesLink

/-! ## Fetcher (scrape.py lines 34-47) -/

/-- The fetch loop: `env i` is the outcome of attempt number `i` (counting
from 0) offered by the network, an error message or a decoded body.  Result:
the returned value, the log of `Attempt n failed` lines as (ordinal, cause)
pairs, and the number of attempts performed. -/
def fetchFrom (env : Nat → Except (List Nat) (List Nat)) :
    Nat → Nat → Option (List Nat) × List (Nat × List Nat) × Nat
  | 0, _ => (none, [], 0)
  | n + 1, i =>
    match env i with
    | Except.ok body => (some body, [], 1)
    | Except.error e =>
      match fetchFrom env n (i + 1) with
      | (r, log, k) => (r, (i + 1, e) :: log, k + 1)

/-- fetch(url, retries): run the attempt loop from attempt 0. -/
def fetch (env : Nat → Except (List Nat) (List Nat)) (retries : Nat) :
    Option (List Nat) × List (Nat × List Nat) × Nat :=
  fetchFrom env retries 0

/-- Error message of a failed attempt outcome. -/
def errOf : Except (List Nat) (List Nat) → List Nat
  | Except.error e => e
  | Except.ok _ => []

/-! ## download_image (scrape.py lines 50-66) -/

/-- File system: association list from path to file contents (bytes). -/
abbrev FS := List (List Nat × List Nat)

/-- Contents at a path, first binding wins. -/
def fsGet : FS → List Nat → Option (List Nat)
  | [], _ => none
  | (q, v) :: rest, p => if q = p then some v else fsGet rest p

/-- Outcome of the single download attempt offered by the environment:
`ok` — GET, read and write all succeed; `netErr` — an exception raised
before the destination file is created (urlopen, read or mkdir); `writeErr
k` — write_bytes raises after k bytes of the body reached the file. -/
inductive DLEvent
  | ok
  | netErr
  | writeErr (written : Nat)

/-- download_image(url, dest_path): returns (returned boolean, file system
after the call, number of network calls made).  An existing destination
short-circuits to success with no network call; otherwise the body is
fetched and written, and every exception is caught and turned into False. -/
def download_image (fs : FS) (dest : List Nat) (body : List Nat) (ev : DLEvent) :
    Bool × FS × Nat :=
  if (fsGet fs dest).isSome then (true, fs, 0)
  else
    match ev with
    | DLEvent.ok => (true, (dest, body) :: fs, 1)
    | DLEvent.netErr => (false, fs, 1)
    | DLEvent.writeErr k => (false, (dest, body.take k) :: fs, 1)

/-! ## Per-item orchestration (scrape.py lines 267-284) -/

/-- BASE_URL from scrape.py line 24. -/
def baseUrl : List Nat := pyStr "https://sanderveen-artshop.nl"

/-- OUTPUT_DIR relative to the repository root (scrape.py line 25). -/
def outputDir : List Nat := pyStr "assets/images/paintings/"

/-- The path component of `urllib.parse.urlparse` for the http(s) URLs the
script builds: drop fragment and query, and when a scheme://netloc is
present keep from the first slash after it. -/
def urlPath (u : List Nat) : List Nat :=
  let noFrag := u.takeWhile (fun c => c != 35)
  let noQ := noFrag.takeWhile (fun c => c != 63)
  match afterSub (pyStr "://") noQ with
  | some rest => rest.dropWhile (fun c => c != 47)
  | none => noQ

/-- os.path.splitext(p)[1]: the extension of the final path segment, empty
when the segment has no dot after its leading dots. -/
def extOf (p : List Nat) : List Nat :=
  let base := (p.reverse.takeWhile (fun c => c != 47)).reverse
  let core := base.dropWhile (fun c => c == 46)
  if core.any (fun c => c == 46) then
    46 :: (core.reverse.takeWhile (fun c => c != 46)).reverse
  else []

/-- The image-handling tail of the per-item loop in main: when the image
list is nonempty, resolve the primary image URL, derive the local filename
from the slug, assign local_image, and call download_image IGNORING its
returned boolean (exactly as the source does); when the list is empty,
local_image is the empty string.  Returns the record's local_image value
and the file system after the step. -/
def processItem (fs : FS) (slug category : List Nat) (images : List (List Nat))
    (ev : DLEvent) (body : List Nat) : List Nat × FS :=
  match images with
  | [] => ([], fs)
  | img0 :: _ =>
    let imgUrl := if startsWithL (pyStr "http") img0 then img0 else baseUrl ++ img0
    let ext0 := extOf (urlPath imgUrl)
    let ext := if ext0.isEmpty then pyStr ".jpg" else ext0
    let filename := slug ++ ext
    let imgPath := outputDir ++ category ++ [47] ++ filename
    let localImage := pyStr "images/paintings/" ++ category ++ [47] ++ filename
    match download_image fs imgPath body ev with
    | (_, fs2, _) => (localImage, fs2)

set_option maxRecDepth 20000

/-! ## Helper lemmas -/

/-- The price regex cannot match in text with no euro sign. -/
theorem findPriceToken_eq_none {h : List Nat} (hno : 8364 ∉ h) : findPriceToken h = none := by
  induction h with
  | nil => rfl
  | cons c cs ih =>
    have hc : ¬ c = 8364 := by
      intro e; exact hno (by simp [e])
    have hcs : 8364 ∉ cs := by
      intro m; exact hno (List.mem_cons_of_mem _ m)
    simp [findPriceToken, priceTokenAt, hc, ih hcs]

/-! ## Claim theorems -/

/-- C1: on a failed primary-image download the per-item step of main still
assigns a non-empty local_image path (download_image's False is ignored),
so the record's localImage is a dangling path to a file that does not exist
at manifest-write time — it is not left empty as required. -/
theorem C1_localImage_dangles_on_failed_download :
    processItem [] (pyStr "x") (pyStr "abstract")
        [pyStr "/data/upload/Shop/images/a.jpg"] DLEvent.netErr [9, 9]
      = (pyStr "images/paintings/abstract/x.jpg", []) ∧
    pyStr "images/paintings/abstract/x.jpg" ≠ [] ∧
    fsGet [] (pyStr "assets/images/paintings/abstract/x.jpg") = none := by decide

/-- C2 counterexample: the token matched in "€ ." is ".", which float()
rejects, and the except-branch stores price 0 — a present zero, not an
absent price. -/
theorem C2_unparsable_price_counterexample :
    extract_price (pyStr "€ .") = some 0 ∧ extract_price (pyStr "€ .") ≠ none := by decide

/-- C2 amended: text with no currency marker yields an absent price;
"€ 1.250,50" is normalized to 1250.50; an unparsable token yields the
PRESENT price 0 (never a fatal error), not an absent price. -/
theorem C2_price_extraction (h : List Nat) (hno : 8364 ∉ h) :
    extract_price h = none ∧
    extract_price (pyStr "Prijs: € 1.250,50 incl btw") = some (mkRat 2501 2) ∧
    extract_price (pyStr "€ .") = some 0 := by
  refine ⟨?_, by decide, by decide⟩
  simp [extract_price, findPriceToken_eq_none hno]

/-- C2 witness: the amended behaviour at concrete pages. -/
theorem C2_price_extraction_witness :
    extract_price (pyStr "geen prijs") = none ∧
    extract_price (pyStr "Prijs: € 1.250,50 incl btw") = some (mkRat 2501 2) ∧
    extract_price (pyStr "€ .") = some 0 :=
  C2_price_extraction (pyStr "geen prijs") (by decide)

/-- C3: title derivation uses rstrip(".html"), which strips the trailing
CHARACTER SET dot/h/t/m/l, not the ".html" suffix: the slug "nacht" of
".../detail/7/nacht.html" loses its trailing letters and both titles come
out "Nac" instead of "Nacht".  The claim's own bilingual examples do hold. -/
theorem C3_rstrip_charset_bug :
    extract_titles (pyStr "/webshop/schilderijenpaintings/abstract/detail/7/nacht.html")
      = (pyStr "Nac", pyStr "Nac") ∧
    extract_titles (pyStr "/webshop/schilderijenpaintings/abstract/detail/8/de-kloof--the-gap.html")
      = (pyStr "De Kloof", pyStr "The Gap") ∧
    pyStr "Nac" ≠ pyStr "Nacht" := by decide

/-- C4: occurrences [A, B, A, C] are deduplicated to [A, B, C] keeping
first-occurrence order, and a distinct og:image URL P not already present
is inserted at the front, giving [P, A, B, C]. -/
theorem C4_image_dedup_and_og_front (A B C P : List Nat)
    (hAB : A ≠ B) (hAC : A ≠ C) (hBC : B ≠ C) (hP : P ∉ [A, B, C]) :
    extract_images [A, B, A, C] none = [A, B, C] ∧
    extract_images [A, B, A, C] (some P) = [P, A, B, C] := by
  have hBA : B ≠ A := Ne.symm hAB
  have hCA : C ≠ A := Ne.symm hAC
  have hCB : C ≠ B := Ne.symm hBC
  have hd : dedupL [A, B, A, C] = [A, B, C] := by
    simp [dedupL, dedupAux, hBA, hCA, hCB]
  exact ⟨by simp [extract_images, insertOg, hd], by simp [extract_images, insertOg, hd, hP]⟩

/-- C4 witness: the deduplication and og-insertion at concrete URLs. -/
theorem C4_image_dedup_and_og_front_witness :
    extract_images [pyStr "/a.jpg", pyStr "/b.jpg", pyStr "/a.jpg", pyStr "/c.jpg"] none
      = [pyStr "/a.jpg", pyStr "/b.jpg", pyStr "/c.jpg"] ∧
    extract_images [pyStr "/a.jpg", pyStr "/b.jpg", pyStr "/a.jpg", pyStr "/c.jpg"]
        (some (pyStr "/p.jpg"))
      = [pyStr "/p.jpg", pyStr "/a.jpg", pyStr "/b.jpg", pyStr "/c.jpg"] :=
  C4_image_dedup_and_og_front _ _ _ _ (by decide) (by decide) (by decide) (by decide)

/-- C6 counterexample: a failure in the middle of write_bytes leaves a
partial file at the destination, the call reports failure, and a later call
finds the file and treats the download as completed. -/
theorem C6_partial_file_counterexample :
    download_image [] (pyStr "assets/x.jpg") [7, 7] (DLEvent.writeErr 1)
      = (false, [(pyStr "assets/x.jpg", [7])], 1) ∧
    (fsGet [(pyStr "assets/x.jpg", [7])] (pyStr "assets/x.jpg")).isSome = true ∧
    download_image [(pyStr "assets/x.jpg", [7])] (pyStr "assets/x.jpg") [7, 7] DLEvent.ok
      = (true, [(pyStr "assets/x.jpg", [7])], 0) := by decide

/-- C6 amended: an error raised before the destination file is created
(connection, read, mkdir) reports failure and leaves the file system
unchanged, but a failure during the body write reports failure AND leaves a
partial file at the destination. -/
theorem C6_download_error_behaviour (fs : FS) (dest body : List Nat) (k : Nat)
    (hne : fsGet fs dest = none) :
    download_image fs dest body DLEvent.netErr = (false, fs, 1) ∧
    download_image fs dest body (DLEvent.writeErr k) = (false, (dest, body.take k) :: fs, 1) := by
  simp [download_image, hne]

/-- C6 witness: the error behaviour at a concrete destination. -/
theorem C6_download_error_behaviour_witness :
    download_image [] (pyStr "assets/y.jpg") [3, 4] DLEvent.netErr = (false, [], 1) ∧
    download_image [] (pyStr "assets/y.jpg") [3, 4] (DLEvent.writeErr 1)
      = (false, [(pyStr "assets/y.jpg", [3])], 1) := by
  have := C6_download_error_behaviour [] (pyStr "assets/y.jpg") [3, 4] 1 (by decide)
  simpa using this

/-- C7: when the destination is absent, a successful download performs
exactly one network call and creates the file; any later call on a file
system holding the destination returns success immediately with zero
network calls and no change. -/
theorem C7_download_idempotent (fs fs2 : FS) (dest body body2 : List Nat) (ev2 : DLEvent)
    (h : fsGet fs dest = none) (h2 : (fsGet fs2 dest).isSome = true) :
    download_image fs dest body DLEvent.ok = (true, (dest, body) :: fs, 1) ∧
    download_image ((dest, body) :: fs) dest body2 ev2 = (true, (dest, body) :: fs, 0) ∧
    download_image fs2 dest body2 ev2 = (true, fs2, 0) := by
  refine ⟨by simp [download_image, h], ?_, by simp [download_image, h2]⟩
  simp [download_image, fsGet]

/-- C7 witness: two calls at a concrete destination, one network call in
total, second call a no-op success. -/
theorem C7_download_idempotent_witness :
    download_image [] (pyStr "i.jpg") [1] DLEvent.ok = (true, [(pyStr "i.jpg", [1])], 1) ∧
    download_image [(pyStr "i.jpg", [1])] (pyStr "i.jpg") [2] DLEvent.netErr
      = (true, [(pyStr "i.jpg", [1])], 0) ∧
    download_image [(pyStr "i.jpg", [1])] (pyStr "i.jpg") [2] DLEvent.netErr
      = (true, [(pyStr "i.jpg", [1])], 0) :=
  C7_download_idempotent [] [(pyStr "i.jpg", [1])] (pyStr "i.jpg") [1] [2] DLEvent.netErr
    (by decide) (by decide)

/-- C8: with 3 attempts against an environment where every attempt fails,
fetch performs exactly 3 attempts, logs each with its ordinal and cause,
and returns the definitive failure none. -/
theorem C8_retry_exhaustion (env : Nat → Except (List Nat) (List Nat))
    (h : ∀ i, ∃ e, env i = Except.error e) :
    fetch env 3 = (none, [(1, errOf (env 0)), (2, errOf (env 1)), (3, errOf (env 2))], 3) := by
  obtain ⟨e0, h0⟩ := h 0
  obtain ⟨e1, h1⟩ := h 1
  obtain ⟨e2, h2⟩ := h 2
  simp [fetch, fetchFrom, h0, h1, h2, errOf]

/-- C8 witness: a concrete always-failing environment. -/
theorem C8_retry_exhaustion_witness :
    fetch (fun _ => Except.error (pyStr "timed out")) 3
      = (none, [(1, pyStr "timed out"), (2, pyStr "timed out"), (3, pyStr "timed out")], 3) := by
  have := C8_retry_exhaustion (fun _ => Except.error (pyStr "timed out"))
    (fun _ => ⟨pyStr "timed out", rfl⟩)
  simpa [errOf] using this

/-- C10: when the og:image URL already occurs anywhere in the deduplicated
image list, the list is left unchanged — the URL is not promoted to element
zero, and element zero stays the first upload-path URL in document order. -/
theorem C10_og_present_not_promoted (ms : List (List Nat)) (og : List Nat)
    (h : og ∈ dedupL ms) :
    extract_images ms (some og) = dedupL ms ∧
    (extract_images ms (some og)).head? = ms.head? := by
  have h1 : extract_images ms (some og) = dedupL ms := by simp [extract_images, insertOg, h]
  refine ⟨h1, ?_⟩
  rw [h1]
  cases ms with
  | nil => rfl
  | cons x xs => simp [dedupL, dedupAux]

/-- C10 witness: og:image already in second position leaves the list and
its first element unchanged. -/
theorem C10_og_present_not_promoted_witness :
    extract_images [pyStr "/a.jpg", pyStr "/b.jpg"] (some (pyStr "/b.jpg"))
      = dedupL [pyStr "/a.jpg", pyStr "/b.jpg"] ∧
    (extract_images [pyStr "/a.jpg", pyStr "/b.jpg"] (some (pyStr "/b.jpg"))).head?
      = ([pyStr "/a.jpg", pyStr "/b.jpg"]).head? :=
  C10_og_present_not_promoted _ _ (by decide)

/-! ## Lemmas about the slugify pipeline -/

/-- Characters of a squashed list: the replacement character or an original
character not in the squashed class. -/
theorem mem_squashAux {p : Nat → Bool} {r : Nat} :
    ∀ (b : Bool) (l : List Nat) (c : Nat),
      c ∈ squashAux p r b l → c = r ∨ (c ∈ l ∧ p c = false) := by
  intro b l
  induction l generalizing b with
  | nil => intro c h; cases b <;> simp [squashAux] at h
  | cons a t ih =>
    intro c h
    by_cases hp : p a = true
    · cases b with
      | true =>
        simp only [squashAux, hp, if_true] at h
        rcases ih true c h with h1 | ⟨h2, h3⟩
        · exact Or.inl h1
        · exact Or.inr ⟨List.mem_cons_of_mem _ h2, h3⟩
      | false =>
        simp only [squashAux, hp, if_true] at h
        rcases List.mem_cons.mp h with rfl | h1
        · exact Or.inl rfl
        · rcases ih true c h1 with h2 | ⟨h2, h3⟩
          · exact Or.inl h2
          · exact Or.inr ⟨List.mem_cons_of_mem _ h2, h3⟩
    · have hp0 : p a = false := by simpa using hp
      cases b <;> simp only [squashAux, hp0, Bool.false_eq_true, if_false, List.mem_cons] at h <;>
        · rcases h with rfl | h1
          · exact Or.inr ⟨List.mem_cons_self _ _, hp0⟩
          · rcases ih false c h1 with h2 | ⟨h2, h3⟩
            · exact Or.inl h2
            · exact Or.inr ⟨List.mem_cons_of_mem _ h2, h3⟩

/-- A character outside the squashed class survives squashing. -/
theorem mem_squashAux_of {p : Nat → Bool} {r : Nat} :
    ∀ (b : Bool) (l : List Nat) (c : Nat),
      c ∈ l → p c = false → c ∈ squashAux p r b l := by
  intro b l
  induction l generalizing b with
  | nil => intro c h; simp at h
  | cons a t ih =>
    intro c h hc
    rcases List.mem_cons.mp h with rfl | h1
    · cases b <;> simp only [squashAux, hc, Bool.false_eq_true, if_false] <;>
        exact List.mem_cons_self _ _
    · by_cases hp : p a = true
      · cases b <;> simp only [squashAux, hp, if_true]
        · exact List.mem_cons_of_mem _ (ih true c h1 hc)
        · exact ih true c h1 hc
      · have hp0 : p a = false := by simpa using hp
        cases b <;> simp only [squashAux, hp0, Bool.false_eq_true, if_false] <;>
          exact List.mem_cons_of_mem _ (ih false c h1 hc)

/-- Extending a hyphen-free-pair list on the left. -/
theorem noDoubleHyphen_cons (a : Nat) (l : List Nat)
    (h1 : noDoubleHyphen l = true)
    (h2 : ∀ d, l.head? = some d → (isHy a && isHy d) = false) :
    noDoubleHyphen (a :: l) = true := by
  cases l with
  | nil => rfl
  | cons b t => simp [noDoubleHyphen, h1, h2 b rfl]

/-- The tail of a hyphen-free-pair list. -/
theorem noDoubleHyphen_tail {a : Nat} {l : List Nat}
    (h : noDoubleHyphen (a :: l) = true) : noDoubleHyphen l = true := by
  cases l with
  | nil => rfl
  | cons b t =>
    simp only [noDoubleHyphen, Bool.and_eq_true] at h
    exact h.2

/-- Collapsing hyphen runs yields no adjacent hyphens, and inside a run the
output cannot start with a hyphen. -/
theorem squashAux_isHy_shape : ∀ (b : Bool) (l : List Nat),
    noDoubleHyphen (squashAux isHy 45 b l) = true ∧
    (b = true → ∀ d, (squashAux isHy 45 b l).head? = some d → isHy d = false) := by
  intro b l
  induction l generalizing b with
  | nil =>
    cases b <;> exact ⟨rfl, by intro hb d hd; simp [squashAux] at hd⟩
  | cons a t ih =>
    by_cases hp : isHy a = true
    · cases b with
      | true =>
        refine ⟨?_, ?_⟩
        · simpa only [squashAux, hp, if_true] using (ih true).1
        · intro _ d hd
          simp only [squashAux, hp, if_true] at hd
          exact (ih true).2 rfl d hd
      | false =>
        refine ⟨?_, ?_⟩
        · simp only [squashAux, hp, if_true]
          refine noDoubleHyphen_cons _ _ (ih true).1 ?_
          intro d hd
          have hd0 : isHy d = false := (ih true).2 rfl d hd
          simp [hd0]
        · intro hb; cases hb
    · have hp0 : isHy a = false := by simpa using hp
      cases b <;> refine ⟨?_, ?_⟩
      · simp only [squashAux, hp0, Bool.false_eq_true, if_false]
        refine noDoubleHyphen_cons _ _ (ih false).1 ?_
        intro d hd
        simp [hp0]
      · intro _ d hd
        simp only [squashAux, hp0, Bool.false_eq_true, if_false, List.head?_cons,
          Option.some.injEq] at hd
        subst hd
        exact hp0
      · simp only [squashAux, hp0, Bool.false_eq_true, if_false]
        refine noDoubleHyphen_cons _ _ (ih false).1 ?_
        intro d hd
        simp [hp0]
      · intro _ d hd
        simp only [squashAux, hp0, Bool.false_eq_true, if_false, List.head?_cons,
          Option.some.injEq] at hd
        subst hd
        exact hp0

/-- The head surviving dropWhile fails the predicate. -/
theorem head_dropWhile_false (p : Nat → Bool) :
    ∀ (l : List Nat) (c : Nat), (l.dropWhile p).head? = some c → p c = false := by
  intro l
  induction l with
  | nil => intro c h; simp [List.dropWhile] at h
  | cons a t ih =>
    intro c h
    by_cases hp : p a = true
    · rw [List.dropWhile_cons, if_pos hp] at h
      exact ih c h
    · rw [List.dropWhile_cons, if_neg hp] at h
      simp only [List.head?_cons, Option.some.injEq] at h
      subst h
      simpa using hp

/-- dropWhile preserves the no-adjacent-hyphens property. -/
theorem noDoubleHyphen_dropWhile (p : Nat → Bool) :
    ∀ l : List Nat, noDoubleHyphen l = true → noDoubleHyphen (l.dropWhile p) = true := by
  intro l
  induction l with
  | nil => intro h; exact h
  | cons a t ih =>
    intro h
    by_cases hp : p a = true
    · rw [List.dropWhile_cons, if_pos hp]
      exact ih (noDoubleHyphen_tail h)
    · rw [List.dropWhile_cons, if_neg hp]
      exact h

/-- Membership in dropWhile implies membership in the original list. -/
theorem mem_of_mem_dropWhile (p : Nat → Bool) :
    ∀ (l : List Nat) (c : Nat), c ∈ l.dropWhile p → c ∈ l := by
  intro l
  induction l with
  | nil => intro c h; simp [List.dropWhile] at h
  | cons a t ih =>
    intro c h
    by_cases hp : p a = true
    · rw [List.dropWhile_cons, if_pos hp] at h
      exact List.mem_cons_of_mem _ (ih c h)
    · rwa [List.dropWhile_cons, if_neg hp] at h

/-- A character failing the predicate survives dropWhile. -/
theorem mem_dropWhile_of_mem (p : Nat → Bool) :
    ∀ (l : List Nat) (c : Nat), c ∈ l → p c = false → c ∈ l.dropWhile p := by
  intro l
  induction l with
  | nil => intro c h; simp at h
  | cons a t ih =>
    intro c h hc
    rcases List.mem_cons.mp h with rfl | h1
    · rw [List.dropWhile_cons, if_neg (by simp [hc])]
      exact List.mem_cons_self _ _
    · by_cases hp : p a = true
      · rw [List.dropWhile_cons, if_pos hp]
        exact ih c h1 hc
      · rw [List.dropWhile_cons, if_neg hp]
        exact List.mem_cons_of_mem _ h1

/-- Membership in dropWhileEnd implies membership in the original list. -/
theorem mem_of_mem_dropWhileEnd (p : Nat → Bool) :
    ∀ (l : List Nat) (c : Nat), c ∈ dropWhileEnd p l → c ∈ l := by
  intro l
  induction l with
  | nil => intro c h; simp [dropWhileEnd] at h
  | cons a t ih =>
    intro c h
    cases hl : dropWhileEnd p t with
    | nil =>
      by_cases hp : p a = true <;> simp only [dropWhileEnd, hl, List.isEmpty_nil, if_true, hp] at h
      · simp at h
      · simp only [Bool.false_eq_true, if_false, List.mem_singleton] at h
        subst h
        exact List.mem_cons_self _ _
    | cons x xs =>
      simp only [dropWhileEnd, hl, List.isEmpty_cons, Bool.false_eq_true, if_false] at h
      rcases List.mem_cons.mp h with rfl | h1
      · exact List.mem_cons_self _ _
      · refine List.mem_cons_of_mem _ (ih c ?_)
        rw [hl]
        exact h1

/-- A character failing the predicate survives dropWhileEnd. -/
theorem mem_dropWhileEnd_of_mem (p : Nat → Bool) :
    ∀ (l : List Nat) (c : Nat), c ∈ l → p c = false → c ∈ dropWhileEnd p l := by
  intro l
  induction l with
  | nil => intro c h; simp at h
  | cons a t ih =>
    intro c h hc
    rcases List.mem_cons.mp h with rfl | h1
    · cases hl : dropWhileEnd p t with
      | nil => simp [dropWhileEnd, hl, hc]
      | cons x xs => simp [dropWhileEnd, hl]
    · have hmem : c ∈ dropWhileEnd p t := ih c h1 hc
      cases hl : dropWhileEnd p t with
      | nil => rw [hl] at hmem; simp at hmem
      | cons x xs =>
        simp only [dropWhileEnd, hl, List.isEmpty_cons, Bool.false_eq_true, if_false]
        exact List.mem_cons_of_mem _ (hl ▸ hmem)

/-- dropWhileEnd keeps the head of the list when anything remains. -/
theorem head_dropWhileEnd (p : Nat → Bool) :
    ∀ (l : List Nat) (c : Nat), (dropWhileEnd p l).head? = some c → l.head? = some c := by
  intro l
  induction l with
  | nil => intro c h; simp [dropWhileEnd] at h
  | cons a t _ =>
    intro c h
    cases hl : dropWhileEnd p t with
    | nil =>
      by_cases hp : p a = true <;>
        simp only [dropWhileEnd, hl, List.isEmpty_nil, if_true, hp] at h
      · simp at h
      · simp only [Bool.false_eq_true, if_false, List.head?_cons, Option.some.injEq] at h
        simp [h]
    | cons x xs =>
      simp only [dropWhileEnd, hl, List.isEmpty_cons, Bool.false_eq_true, if_false,
        List.head?_cons, Option.some.injEq] at h
      simp [h]

/-- The last character surviving dropWhileEnd fails the predicate. -/
theorem getLast_dropWhileEnd (p : Nat → Bool) :
    ∀ (l : List Nat) (c : Nat), (dropWhileEnd p l).getLast? = some c → p c = false := by
  intro l
  induction l with
  | nil => intro c h; simp [dropWhileEnd] at h
  | cons a t ih =>
    intro c h
    cases hl : dropWhileEnd p t with
    | nil =>
      by_cases hp : p a = true <;>
        simp only [dropWhileEnd, hl, List.isEmpty_nil, if_true, hp] at h
      · simp at h
      · simp only [Bool.false_eq_true, if_false, List.getLast?_singleton,
          Option.some.injEq] at h
        subst h
        simpa using hp
    | cons x xs =>
      simp only [dropWhileEnd, hl, List.isEmpty_cons, Bool.false_eq_true, if_false,
        List.getLast?_cons_cons] at h
      exact ih c (hl ▸ h)

/-- dropWhileEnd preserves the no-adjacent-hyphens property. -/
theorem noDoubleHyphen_dropWhileEnd (p : Nat → Bool) :
    ∀ l : List Nat, noDoubleHyphen l = true → noDoubleHyphen (dropWhileEnd p l) = true := by
  intro l
  induction l with
  | nil => intro h; exact h
  | cons a t ih =>
    intro h
    cases hl : dropWhileEnd p t with
    | nil => by_cases hp : p a = true <;> simp [dropWhileEnd, hl, hp, noDoubleHyphen]
    | cons x xs =>
      simp only [dropWhileEnd, hl, List.isEmpty_cons, Bool.false_eq_true, if_false]
      refine noDoubleHyphen_cons _ _ ?_ ?_
      · rw [← hl]
        exact ih (noDoubleHyphen_tail h)
      · intro d hd
        simp only [List.head?_cons, Option.some.injEq] at hd
        have hx : t.head? = some d := by
          have hx0 := head_dropWhileEnd p t x (by rw [hl]; rfl)
          rwa [hd] at hx0
        cases t with
        | nil => simp at hx
        | cons y t2 =>
          simp only [List.head?_cons, Option.some.injEq] at hx
          have hh : (!(isHy a && isHy y)) = true := by
            simp only [noDoubleHyphen, Bool.and_eq_true] at h
            exact h.1
          rw [← hx]
          rwa [Bool.not_eq_true'] at hh

/-- Lowercasing never produces an ASCII uppercase letter. -/
theorem isAsciiUpper_pyLowerN (n : Nat) : isAsciiUpper (pyLowerN n) = false := by
  unfold pyLowerN isAsciiUpper
  by_cases h : 65 ≤ n ∧ n ≤ 90
  · rw [if_pos h]
    simp only [decide_eq_false_iff_not]
    omega
  · rw [if_neg h]
    simp only [decide_eq_false_iff_not]
    exact h

/-- Lowercasing an alphanumeric yields a lowercase letter or a digit. -/
theorem lower_digit_pyLowerN (n : Nat) (h : isAsciiAlnum n = true) :
    (isAsciiLower (pyLowerN n) || isAsciiDigit (pyLowerN n)) = true := by
  unfold isAsciiAlnum isAsciiAlpha isAsciiUpper isAsciiLower isAsciiDigit pyLowerN at *
  by_cases hu : 65 ≤ n ∧ n ≤ 90
  · rw [if_pos hu]
    simp only [Bool.or_eq_true, decide_eq_true_eq] at *
    omega
  · rw [if_neg hu]
    simp only [Bool.or_eq_true, decide_eq_true_eq] at *
    omega

/-- Character-class facts about a lowercase letter or digit. -/
theorem goodChar_flags (m : Nat) (hm : (isAsciiLower m || isAsciiDigit m) = true) :
    isSpaceN m = false ∧ isUnd m = false ∧ isHy m = false ∧ isWordChar m = true ∧
      isAsciiAlnum m = true := by
  unfold isSpaceN isUnd isHy isWordChar isAsciiAlnum isAsciiAlpha isAsciiUpper
    isAsciiLower isAsciiDigit at *
  simp only [Bool.or_eq_true, decide_eq_true_eq, decide_eq_false_iff_not] at *
  omega

/-- An alphanumeric character together with the absence of uppercase gives a
slug character. -/
theorem isSlugChar_of_alnum_not_upper (m : Nat) (h1 : isAsciiAlnum m = true)
    (h2 : isAsciiUpper m = false) : isSlugChar m = true := by
  unfold isSlugChar isAsciiAlnum isAsciiAlpha isAsciiUpper isAsciiLower isAsciiDigit
    isHy at *
  simp only [Bool.or_eq_true, decide_eq_true_eq, decide_eq_false_iff_not] at *
  omega

/-! ## C5: slugify -/

/-- C5 counterexample: a title with no word characters yields the EMPTY
slug, contradicting the claimed non-emptiness. -/
theorem C5_empty_slug_counterexample : slugify (pyStr ".") = [] := by decide

/-- C5 amended: for every ASCII input title (every code point below 128,
the range on which this model coincides with Python's Unicode-aware lower,
strip and regex classes) containing at least one alphanumeric character,
slug derivation is deterministic and the slug is non-empty, contains only
lowercase alphanumerics and hyphens, and has no leading, trailing or
duplicate hyphens; a title without word characters may yield an empty slug,
and for non-ASCII titles Python's slugify may keep non-ASCII word
characters (e.g. a lowercased accented letter) in the slug, so nothing is
asserted outside the ASCII range. -/
theorem C5_slugify_shape (s t : List Nat) (c : Nat) (_hascii : ∀ x ∈ s, x < 128)
    (hst : s = t) (hc : c ∈ s) (ha : isAsciiAlnum c = true) :
    slugify s = slugify t ∧
    (slugify s).all isSlugChar = true ∧
    noDoubleHyphen (slugify s) = true ∧
    (slugify s).head? ≠ some 45 ∧
    (slugify s).getLast? ≠ some 45 ∧
    slugify s ≠ [] := by
  subst hst
  have hs : slugify s =
      dropWhileEnd isHy ((squashRuns isHy 45 (squashRuns (fun c => isSpaceN c || isUnd c) 45
        ((pyStrip (s.map pyLowerN)).filter
          (fun c => isWordChar c || isSpaceN c || isHy c)))).dropWhile isHy) := rfl
  refine ⟨rfl, ?_, ?_, ?_, ?_, ?_⟩
  · rw [hs]
    refine List.all_eq_true.mpr ?_
    intro x hx
    have hx1 := mem_of_mem_dropWhile isHy _ _ (mem_of_mem_dropWhileEnd isHy _ _ hx)
    rcases mem_squashAux false _ x hx1 with rfl | ⟨hx2, hxHy⟩
    · decide
    rcases mem_squashAux false _ x hx2 with rfl | ⟨hx3, hxSU⟩
    · exact absurd hxHy (by decide)
    rcases List.mem_filter.mp hx3 with ⟨hx4, hkeep⟩
    have hx5 := mem_of_mem_dropWhile isSpaceN _ _ (mem_of_mem_dropWhileEnd isSpaceN _ _ hx4)
    rcases List.mem_map.mp hx5 with ⟨y, _, rfl⟩
    set m := pyLowerN y with hmdef
    have hup : isAsciiUpper m = false := isAsciiUpper_pyLowerN y
    have halnum : isAsciiAlnum m = true := by
      simp only [Bool.or_eq_true] at hxSU hkeep
      rcases hkeep with (hk | hk) | hk
      · unfold isWordChar at hk
        simp only [Bool.or_eq_true] at hk
        rcases hk with hk1 | hk1
        · exact hk1
        · exact absurd hk1 (by simp_all)
      · exact absurd hk (by simp_all)
      · exact absurd hk (by simp_all)
    exact isSlugChar_of_alnum_not_upper m halnum hup
  · rw [hs]
    exact noDoubleHyphen_dropWhileEnd isHy _
      (noDoubleHyphen_dropWhile isHy _ (squashAux_isHy_shape false _).1)
  · rw [hs]
    intro h
    have h1 := head_dropWhile_false isHy _ _ (head_dropWhileEnd isHy _ _ h)
    exact absurd h1 (by decide)
  · rw [hs]
    intro h
    have h1 := getLast_dropWhileEnd isHy _ _ h
    exact absurd h1 (by decide)
  · rw [hs]
    have hm : (isAsciiLower (pyLowerN c) || isAsciiDigit (pyLowerN c)) = true :=
      lower_digit_pyLowerN c ha
    obtain ⟨hsp, hun, hhy, hwd, _⟩ := goodChar_flags (pyLowerN c) hm
    have m1 : pyLowerN c ∈ s.map pyLowerN := List.mem_map_of_mem pyLowerN hc
    have m2 : pyLowerN c ∈ pyStrip (s.map pyLowerN) :=
      mem_dropWhileEnd_of_mem isSpaceN _ _ (mem_dropWhile_of_mem isSpaceN _ _ m1 hsp) hsp
    have m3 : pyLowerN c ∈ (pyStrip (s.map pyLowerN)).filter
        (fun c => isWordChar c || isSpaceN c || isHy c) :=
      List.mem_filter.mpr ⟨m2, by simp [hwd]⟩
    have hsu : (isSpaceN (pyLowerN c) || isUnd (pyLowerN c)) = false := by simp [hsp, hun]
    have m4 := @mem_squashAux_of (fun k => isSpaceN k || isUnd k) 45 false _ _ m3 hsu
    have m5 := @mem_squashAux_of isHy 45 false _ _ m4 hhy
    have m6 := mem_dropWhileEnd_of_mem isHy _ _ (mem_dropWhile_of_mem isHy _ _ m5 hhy) hhy
    exact List.ne_nil_of_mem m6

/-- C5 witness: the shape properties at the concrete title "De Kloof". -/
theorem C5_slugify_shape_witness :
    slugify (pyStr "De Kloof") = slugify (pyStr "De Kloof") ∧
    (slugify (pyStr "De Kloof")).all isSlugChar = true ∧
    noDoubleHyphen (slugify (pyStr "De Kloof")) = true ∧
    (slugify (pyStr "De Kloof")).head? ≠ some 45 ∧
    (slugify (pyStr "De Kloof")).getLast? ≠ some 45 ∧
    slugify (pyStr "De Kloof") ≠ [] :=
  C5_slugify_shape (pyStr "De Kloof") (pyStr "De Kloof") 68 (by decide) rfl (by decide)
    (by decide)

/-! ## C9: LinkExtractor -/

/-- The LinkExtractor fold equals first-occurrence deduplication of the
qualifying hrefs, for any starting accumulator. -/
theorem foldl_linkStep (doc : List Tag) : ∀ acc : List (List Nat),
    doc.foldl linkStep acc = acc ++ dedupAux acc (qualHrefs doc) := by
  induction doc with
  | nil => intro acc; simp [qualHrefs, dedupAux]
  | cons t rest ih =>
    intro acc
    rw [List.foldl_cons]
    by_cases hname : t.name = aName
    · by_cases hq : qualifiesLink (dictGet t.attrs hrefKey) = true
      · have hqh : qualHrefs (t :: rest) = dictGet t.attrs hrefKey :: qualHrefs rest := by
          simp [qualHrefs, hname, hq]
        by_cases hmem : dictGet t.attrs hrefKey ∈ acc
        · have hstep : linkStep acc t = acc := by simp [linkStep, hname, hq, hmem]
          rw [hstep, ih, hqh]
          simp [dedupAux, hmem]
        · have hstep : linkStep acc t = acc ++ [dictGet t.attrs hrefKey] := by
            simp [linkStep, hname, hq, hmem]
          rw [hstep, ih, hqh]
          simp [dedupAux, hmem, List.append_assoc]
      · have hq0 : qualifiesLink (dictGet t.attrs hrefKey) = false := by simpa using hq
        have hstep : linkStep acc t = acc := by simp [linkStep, hname, hq0]
        have hqh : qualHrefs (t :: rest) = qualHrefs rest := by
          simp [qualHrefs, hname, hq0]
        rw [hstep, ih, hqh]
    · have hstep : linkStep acc t = acc := by simp [linkStep, hname]
      have hqh : qualHrefs (t :: rest) = qualHrefs rest := by simp [qualHrefs, hname]
      rw [hstep, ih, hqh]

/-- C9: extractLinks returns exactly the anchor hrefs containing the detail
segment and ending in the page extension, deduplicated by string equality
keeping first-occurrence document order; a page with two qualifying links
and one non-qualifying link yields exactly the two qualifying links in
order. -/
theorem C9_extractLinks_spec (doc : List Tag) (h1 h2 h3 : List Nat)
    (hq1 : qualifiesLink h1 = true) (hq2 : qualifiesLink h2 = true)
    (hq3 : qualifiesLink h3 = false) (hne : h1 ≠ h2) :
    extractLinks doc = dedupL (qualHrefs doc) ∧
    extractLinks [Tag.mk aName [(hrefKey, h1)], Tag.mk aName [(hrefKey, h3)],
        Tag.mk aName [(hrefKey, h2)]] = [h1, h2] := by
  constructor
  · simpa [extractLinks, dedupL] using foldl_linkStep doc []
  · have hg : ∀ h : List Nat, dictGet [(hrefKey, h)] hrefKey = h := by
      intro h; simp [dictGet]
    simp [extractLinks, linkStep, hg, hq1, hq2, hq3, Ne.symm hne]

/-- C9 witness: a concrete listing page with two qualifying detail links
and one non-qualifying link. -/
theorem C9_extractLinks_spec_witness :
    extractLinks [Tag.mk aName [(hrefKey, pyStr "/webshop/x/detail/1/a.html")],
        Tag.mk aName [(hrefKey, pyStr "/webshop/x/other.html")],
        Tag.mk aName [(hrefKey, pyStr "/webshop/x/detail/2/b.html")]]
      = dedupL (qualHrefs [Tag.mk aName [(hrefKey, pyStr "/webshop/x/detail/1/a.html")],
          Tag.mk aName [(hrefKey, pyStr "/webshop/x/other.html")],
          Tag.mk aName [(hrefKey, pyStr "/webshop/x/detail/2/b.html")]]) ∧
    extractLinks [Tag.mk aName [(hrefKey, pyStr "/webshop/x/detail/1/a.html")],
        Tag.mk aName [(hrefKey, pyStr "/webshop/x/other.html")],
        Tag.mk aName [(hrefKey, pyStr "/webshop/x/detail/2/b.html")]]
      = [pyStr "/webshop/x/detail/1/a.html", pyStr "/webshop/x/detail/2/b.html"] :=
  C9_extractLinks_spec
    [Tag.mk aName [(hrefKey, pyStr "/webshop/x/detail/1/a.html")],
      Tag.mk aName [(hrefKey, pyStr "/webshop/x/other.html")],
      Tag.mk aName [(hrefKey, pyStr "/webshop/x/detail/2/b.html")]]
    (pyStr "/webshop/x/detail/1/a.html") (pyStr "/webshop/x/detail/2/b.html")
    (pyStr "/webshop/x/other.html") (by decide) (by decide) (by decide) (by decide)

end Scrape
